import Mathlib

/-!
Verification development for the `analytik` client library
(`src/analytik.js`).  The definitions below are a shallow embedding of
the functions of that file: pure JavaScript functions become Lean
functions, `localStorage`-backed state becomes explicit state passing,
JavaScript numbers become `Nat`, `Int` (with explicit reduction
modulo 2^32 where 32-bit overflow matters) or `Rat`, and the browser's
random and network effects become explicit input parameters.
-/

namespace Analytik

/-! ### 32-bit string hash (`hashCode`, src/analytik.js lines 3764-3773)

JavaScript `hash = ((hash << 5) - hash) + char; hash = hash & hash`
performs `ToInt32` coercions; the composite of one loop iteration is
`h := toInt32 (31 * h + c)`.  The final value is
`Math.abs(hash) / 2147483647`, a rational in `[0, 2^31/(2^31-1)]`. -/

/-- JavaScript `ToInt32`: reduce an integer into `[-2^31, 2^31)`. -/
def toInt32 (x : Int) : Int :=
  ((x + 2 ^ 31) % 2 ^ 32) - 2 ^ 31

/-- One iteration of the `hashCode` loop body. -/
def hashCodeStep (h : Int) (c : Nat) : Int :=
  toInt32 (31 * h + (c : Int))

/-- The raw 32-bit signed accumulator of `hashCode` over a list of
UTF-16 code units (all source inputs are ASCII, where code units and
code points agree). -/
def hashCodeRaw (cs : List Nat) : Int :=
  cs.foldl hashCodeStep 0

/-- `hashCode(str)` (src/analytik.js lines 3764-3773): the empty string
returns `0` directly; otherwise the accumulator is normalized by
`Math.abs(hash) / 2147483647`. -/
def hashCode (s : String) : ℚ :=
  if s.data.length = 0 then 0
  else ((hashCodeRaw (s.data.map Char.toNat)).natAbs : ℚ) / 2147483647

/-! ### SHA-256 (`hashString`, src/analytik.js lines 371-377)

`hashString` UTF-8 encodes the input, digests it with
`crypto.subtle.digest('SHA-256', ...)` and prints each byte as two
lowercase hex digits.  The digest itself is a platform primitive; it is
embedded here as the standard FIPS 180-4 SHA-256 over byte lists, all
words kept as `Nat` reduced modulo `2 ^ 32`. -/

/-- Addition modulo `2 ^ 32`. -/
def add32 (a b : Nat) : Nat := (a + b) % 2 ^ 32

/-- Right rotation of a 32-bit word by `s` bits. -/
def rotr32 (s x : Nat) : Nat := x / 2 ^ s + x % 2 ^ s * 2 ^ (32 - s)

/-- Logical right shift of a 32-bit word. -/
def shr32 (s x : Nat) : Nat := x / 2 ^ s

def ch32 (x y z : Nat) : Nat := (x &&& y) ^^^ ((x ^^^ 0xffffffff) &&& z)

def maj32 (x y z : Nat) : Nat := (x &&& y) ^^^ (x &&& z) ^^^ (y &&& z)

def bsig0 (x : Nat) : Nat := rotr32 2 x ^^^ rotr32 13 x ^^^ rotr32 22 x

def bsig1 (x : Nat) : Nat := rotr32 6 x ^^^ rotr32 11 x ^^^ rotr32 25 x

def ssig0 (x : Nat) : Nat := rotr32 7 x ^^^ rotr32 18 x ^^^ shr32 3 x

def ssig1 (x : Nat) : Nat := rotr32 17 x ^^^ rotr32 19 x ^^^ shr32 10 x

/-- The 64 SHA-256 round constants, in rows of eight. -/
def k256 : List Nat :=
  [0x428a2f98, 0x71374491, 0xb5c0fbcf, 0xe9b5dba5, 0x3956c25b, 0x59f111f1, 0x923f82a4, 0xab1c5ed5] ++
  [0xd807aa98, 0x12835b01, 0x243185be, 0x550c7dc3, 0x72be5d74, 0x80deb1fe, 0x9bdc06a7, 0xc19bf174] ++
  [0xe49b69c1, 0xefbe4786, 0x0fc19dc6, 0x240ca1cc, 0x2de92c6f, 0x4a7484aa, 0x5cb0a9dc, 0x76f988da] ++
  [0x983e5152, 0xa831c66d, 0xb00327c8, 0xbf597fc7, 0xc6e00bf3, 0xd5a79147, 0x06ca6351, 0x14292967] ++
  [0x27b70a85, 0x2e1b2138, 0x4d2c6dfc, 0x53380d13, 0x650a7354, 0x766a0abb, 0x81c2c92e, 0x92722c85] ++
  [0xa2bfe8a1, 0xa81a664b, 0xc24b8b70, 0xc76c51a3, 0xd192e819, 0xd6990624, 0xf40e3585, 0x106aa070] ++
  [0x19a4c116, 0x1e376c08, 0x2748774c, 0x34b0bcb5, 0x391c0cb3, 0x4ed8aa4a, 0x5b9cca4f, 0x682e6ff3] ++
  [0x748f82ee, 0x78a5636f, 0x84c87814, 0x8cc70208, 0x90befffa, 0xa4506ceb, 0xbef9a3f7, 0xc67178f2]

/-- The initial SHA-256 state. -/
def h256 : List Nat :=
  [0x6a09e667, 0xbb67ae85, 0x3c6ef372, 0xa54ff53a] ++
  [0x510e527f, 0x9b05688c, 0x1f83d9ab, 0x5be0cd19]

/-- Extend a 16-word message block by `n` further schedule words. -/
def extendSchedule (acc : List Nat) : Nat → List Nat
  | 0 => acc
  | n + 1 =>
    let l := acc.length
    let w := add32 (add32 (ssig1 (acc.getD (l - 2) 0)) (acc.getD (l - 7) 0))
                   (add32 (ssig0 (acc.getD (l - 15) 0)) (acc.getD (l - 16) 0))
    extendSchedule (acc ++ [w]) n

/-- One SHA-256 round on the eight-word working state. -/
def sha256Round (st : List Nat) (wk : Nat × Nat) : List Nat :=
  let a := st.getD 0 0
  let b := st.getD 1 0
  let c := st.getD 2 0
  let d := st.getD 3 0
  let e := st.getD 4 0
  let f := st.getD 5 0
  let g := st.getD 6 0
  let h := st.getD 7 0
  let t1 := add32 h (add32 (bsig1 e) (add32 (ch32 e f g) (add32 wk.1 wk.2)))
  let t2 := add32 (bsig0 a) (maj32 a b c)
  [add32 t1 t2, a, b, c, add32 d t1, e, f, g]

/-- Compress one 16-word block into the running eight-word state. -/
def sha256Block (hs block : List Nat) : List Nat :=
  let w := extendSchedule block 48
  let out := (w.zip k256).foldl sha256Round hs
  (hs.zip out).map fun p => add32 p.1 p.2

/-- Chunk a word list into 16-word blocks (the padded message length
is always a multiple of 16 words). -/
def toBlocks : List Nat → List (List Nat)
  | w0 :: w1 :: w2 :: w3 :: w4 :: w5 :: w6 :: w7 ::
    w8 :: w9 :: w10 :: w11 :: w12 :: w13 :: w14 :: w15 :: rest =>
    [w0, w1, w2, w3, w4, w5, w6, w7, w8, w9, w10, w11, w12, w13, w14, w15] :: toBlocks rest
  | _ => []

/-- Fold the compression function over all 16-word blocks. -/
def sha256Blocks (hs ws : List Nat) : List Nat :=
  (toBlocks ws).foldl sha256Block hs

/-- Big-endian 64-bit length suffix of the SHA-256 padding. -/
def be64 (n : Nat) : List Nat :=
  [n / 2 ^ 56 % 256, n / 2 ^ 48 % 256, n / 2 ^ 40 % 256, n / 2 ^ 32 % 256,
   n / 2 ^ 24 % 256, n / 2 ^ 16 % 256, n / 2 ^ 8 % 256, n % 256]

/-- FIPS 180-4 padding: `0x80`, zeros to 56 mod 64, then the bit length. -/
def sha256Pad (msg : List Nat) : List Nat :=
  let z := (119 - msg.length % 64) % 64
  msg ++ [0x80] ++ List.replicate z 0 ++ be64 (8 * msg.length)

/-- Group a byte list into big-endian 32-bit words. -/
def bytesToWords : List Nat → List Nat
  | b0 :: b1 :: b2 :: b3 :: rest => (((b0 * 256 + b1) * 256 + b2) * 256 + b3) :: bytesToWords rest
  | _ => []

/-- Split a 32-bit word into big-endian bytes. -/
def wordToBytes (w : Nat) : List Nat :=
  [w / 2 ^ 24 % 256, w / 2 ^ 16 % 256, w / 2 ^ 8 % 256, w % 256]

/-- SHA-256 digest of a byte list, as a 32-byte list. -/
def sha256Bytes (msg : List Nat) : List Nat :=
  (sha256Blocks h256 (bytesToWords (sha256Pad msg))).flatMap wordToBytes

/-- UTF-8 encoding of one code point (the `TextEncoder` of
`hashString`). -/
def utf8Char (c : Nat) : List Nat :=
  if c < 0x80 then [c]
  else if c < 0x800 then [0xc0 + c / 64, 0x80 + c % 64]
  else if c < 0x10000 then [0xe0 + c / 4096, 0x80 + c / 64 % 64, 0x80 + c % 64]
  else [0xf0 + c / 262144, 0x80 + c / 4096 % 64, 0x80 + c / 64 % 64, 0x80 + c % 64]

/-- UTF-8 bytes of a string. -/
def utf8Bytes (s : String) : List Nat :=
  s.data.flatMap fun c => utf8Char c.toNat

/-- A byte as two lowercase hex digits (`b.toString(16).padStart(2,'0')`);
`Nat.digitChar` maps 0-15 to the lowercase hex digits. -/
def hexByte (b : Nat) : List Char :=
  [Nat.digitChar (b / 16), Nat.digitChar (b % 16)]

/-- `hashString(str)` (src/analytik.js lines 371-377): hex-encoded
SHA-256 of the UTF-8 encoding of `str`. -/
def hashString (s : String) : String :=
  String.mk ((sha256Bytes (utf8Bytes s)).flatMap hexByte)

/-- The digest as a big-endian natural number (used to state the
spec's normalization of the digest into the unit interval). -/
def sha256Nat (s : String) : Nat :=
  (sha256Bytes (utf8Bytes s)).foldl (fun a b => a * 256 + b) 0

/-! ### Fingerprint generation (`generateFingerprint`, src/analytik.js lines 186-228)

`generateFingerprint` builds a `components` object by inserting up to
six keys in a fixed source order (`hardware`, `browser`, `canvas`,
`webgl`, `audio`, `fonts`), each guarded by its config flag, then
hashes `JSON.stringify(components)` with `hashString`.  Component
values are opaque serializable provider outputs; they are modelled as
their JSON serializations (strings).  `JSON.stringify` serializes
object keys in insertion order. -/

/-- The six `fingerprintComponents` config flags. -/
structure FPConfig where
  hardware : Bool
  browser : Bool
  canvas : Bool
  webgl : Bool
  audio : Bool
  fonts : Bool

/-- The provider outputs, one JSON-serialized value per category. -/
structure FPSignals where
  hardware : String
  browser : String
  canvas : String
  webgl : String
  audio : String
  fonts : String

/-- One optional component: present exactly when its flag is enabled. -/
def optComp (b : Bool) (k v : String) : List (String × String) :=
  if b then [(k, v)] else []

/-- The `components` object of `generateFingerprint`, as an ordered
association list (JS object insertion order). -/
def componentsOf (cfg : FPConfig) (sig : FPSignals) : List (String × String) :=
  optComp cfg.hardware "hardware" sig.hardware ++
  optComp cfg.browser "browser" sig.browser ++
  optComp cfg.canvas "canvas" sig.canvas ++
  optComp cfg.webgl "webgl" sig.webgl ++
  optComp cfg.audio "audio" sig.audio ++
  optComp cfg.fonts "fonts" sig.fonts

/-- `JSON.stringify` of an object whose values are already serialized:
keys are quoted and emitted in insertion order. -/
def jsonStringifyObj (l : List (String × String)) : String :=
  "\x7b" ++ String.intercalate "," (l.map fun p => "\"" ++ p.1 ++ "\":" ++ p.2) ++ "\x7d"

/-- The fingerprint digest computed by `generateFingerprint` (line
216-217): `hashString(JSON.stringify(components))`. -/
def generateFingerprint (cfg : FPConfig) (sig : FPSignals) : String :=
  hashString (jsonStringifyObj (componentsOf cfg sig))

/-- The position of a component key in the fixed insertion order of
`generateFingerprint`. -/
def componentRank (k : String) : Nat :=
  if k = "hardware" then 0
  else if k = "browser" then 1
  else if k = "canvas" then 2
  else if k = "webgl" then 3
  else if k = "audio" then 4
  else if k = "fonts" then 5
  else 6

/-- Strict ordering of components by key rank. -/
def componentLt (p q : String × String) : Prop :=
  componentRank p.1 < componentRank q.1

/-! ### Association lists (JS objects persisted through `JSON`)

The `localStorage`-backed objects (`da_ab_tests`, `da_ab_assignments`,
`da_funnels`, `da_user_funnels`, `da_labels`) are JS objects
round-tripped through `JSON.parse`/`JSON.stringify`; key order is
insertion order, and property assignment updates an existing key in
place or appends a new one. -/

/-- JS property read `obj[k]`. -/
def lookupA {α : Type} (l : List (String × α)) (k : String) : Option α :=
  match l with
  | [] => none
  | p :: rest => if p.1 = k then some p.2 else lookupA rest k

/-- JS property write `obj[k] = v`. -/
def insertA {α : Type} (l : List (String × α)) (k : String) (v : α) : List (String × α) :=
  match l with
  | [] => [(k, v)]
  | p :: rest => if p.1 = k then (k, v) :: rest else p :: insertA rest k v

/-- JS truthiness test `if (obj[k])` on string-valued objects: an
absent key and the empty string are both falsy. -/
def truthyLookup (l : List (String × String)) (k : String) : Option String :=
  match lookupA l k with
  | some v => if v = "" then none else some v
  | none => none

/-! ### A/B testing (`createABTest` / `getABTestVariant`,
src/analytik.js lines 3546-3584) -/

/-- A JS value as returned by `getABTestVariant`: `undefined`, `null`,
or a string. -/
inductive JSValue where
  | undef
  | null
  | str (s : String)
deriving DecidableEq, Repr

/-- One entry of `da_ab_tests`. -/
structure ABTest where
  variants : List String
  trafficSplit : ℚ
  createdAt : Nat
deriving DecidableEq, Repr

/-- The `localStorage` state touched by the A/B-testing functions. -/
structure ABState where
  tests : List (String × ABTest)
  assignments : List (String × String)
deriving DecidableEq, Repr

/-- `createABTest(testName, variants, trafficSplit = 0.5)`
(src/analytik.js lines 3546-3563); the `sendEvent` notification it
emits does not touch this state. -/
def createABTest (st : ABState) (testName : String) (variants : List String)
    (trafficSplit : ℚ) (now : Nat) : ABState :=
  { st with tests := insertA st.tests testName ⟨variants, trafficSplit, now⟩ }

/-- `getABTestVariant(testName)` (src/analytik.js lines 3565-3584),
returning the JS value and the updated `da_ab_assignments`.  The
existing-assignment check is the truthy test `if (assignments[userKey])`.
When `test.variants[1]` is accessed out of bounds the JS value is
`undefined`; the subsequent `assignments[userKey] = undefined` is
dropped by `JSON.stringify`, so the persisted assignments are
unchanged in that case. -/
def getABTestVariant (st : ABState) (fingerprintLabel testName : String) : JSValue × ABState :=
  let userKey := fingerprintLabel ++ "_" ++ testName
  match truthyLookup st.assignments userKey with
  | some v => (.str v, st)
  | none =>
    match lookupA st.tests testName with
    | none => (.null, st)
    | some test =>
      let hash := hashCode (fingerprintLabel ++ testName)
      let variant := if hash < test.trafficSplit then test.variants.get? 0 else test.variants.get? 1
      match variant with
      | some v => (.str v, { st with assignments := insertA st.assignments userKey v })
      | none => (.undef, st)

/-- The operations of a page session that touch the A/B-testing
state. -/
inductive ABOp where
  | create (testName : String) (variants : List String) (trafficSplit : ℚ) (now : Nat)
  | lookupVariant (testName : String)

def applyABOp (fingerprintLabel : String) (st : ABState) : ABOp → ABState
  | .create n v s t => createABTest st n v s t
  | .lookupVariant n => (getABTestVariant st fingerprintLabel n).2

/-- A/B-testing states reachable from empty storage by a client with a
fixed fingerprint label. -/
inductive ABReachable (fingerprintLabel : String) : ABState → Prop where
  | init : ABReachable fingerprintLabel ⟨[], []⟩
  | step (st : ABState) (op : ABOp) :
      ABReachable fingerprintLabel st → ABReachable fingerprintLabel (applyABOp fingerprintLabel st op)

/-- Modelled from the spec, for comparison with `getABTestVariant`:
the §4.3 selection rule, "compute a normalized pseudo-random value in
[0,1) by hashing `fingerprint + experimentName` with the same digest
function as §4.1 and mapping the resulting integer to the unit
interval; walk the experiment's weight map in insertion order
accumulating weights until the running sum exceeds the normalized
value; the variant at that point is selected (first variant is the
fallback if rounding error leaves no match)".  The walk step. -/
def specWalkGo (u : ℚ) : List (String × ℚ) → ℚ → Option String
  | [], _ => none
  | (v, w) :: rest, acc => if u < acc + w then some v else specWalkGo u rest (acc + w)

/-- Modelled from the spec (§4.3, with the §3 default of uniform
weights): the digest integer is mapped to `[0,1)` as
`sha256Nat / 2 ^ 256`, the weight map is walked in insertion order,
and the first variant is the fallback. -/
def specSelectVariant (fingerprint testName : String) (variants : List String) : Option String :=
  let u : ℚ := (sha256Nat (fingerprint ++ testName) : ℚ) / 2 ^ 256
  match specWalkGo u (variants.map fun v => (v, (1 : ℚ) / variants.length)) 0 with
  | some v => some v
  | none => variants.head?

/-! ### Funnels (`trackFunnelStep`, src/analytik.js lines 3625-3673) -/

/-- One entry of `da_funnels`. -/
structure FunnelDef where
  steps : List String
  createdAt : Nat
deriving DecidableEq, Repr

/-- One element of a user funnel's `steps` array. -/
structure StepRecord where
  step : String
  timestamp : Nat
  props : List (String × String)
deriving DecidableEq, Repr

/-- One entry of `da_user_funnels`. -/
structure UserFunnel where
  startedAt : Nat
  steps : List StepRecord
deriving DecidableEq, Repr

/-- The observation `trackFunnelStep` hands to `sendEvent`. -/
structure FunnelEvent where
  etype : String
  funnelName : String
  stepName : String
  stepIndex : Nat
  totalSteps : Nat
  completed : Bool
deriving DecidableEq, Repr

/-- Result of one `trackFunnelStep` call: the updated
`da_user_funnels`, the emitted observation (if any, modelled as the
`sendEvent` argument) and the warning log line (if any). -/
structure TrackResult where
  state : List (String × UserFunnel)
  event : Option FunnelEvent
  warn : Option String
deriving DecidableEq, Repr

/-- JS `array.indexOf(x)` (here always compared against `-1` and then
used as a valid index, so the absent case is an `Option`). -/
def indexOfFrom (x : String) : List String → Nat → Option Nat
  | [], _ => none
  | y :: rest, i => if y = x then some i else indexOfFrom x rest (i + 1)

/-- `trackFunnelStep(funnelName, stepName, properties)`
(src/analytik.js lines 3625-3673). -/
def trackFunnelStep (funnels : List (String × FunnelDef)) (userFunnels : List (String × UserFunnel))
    (fingerprintLabel funnelName stepName : String) (props : List (String × String))
    (now : Nat) : TrackResult :=
  match lookupA funnels funnelName with
  | none => ⟨userFunnels, none, some ("Funnel not found: " ++ funnelName)⟩
  | some funnel =>
    match indexOfFrom stepName funnel.steps 0 with
    | none => ⟨userFunnels, none, some ("Step not found in funnel " ++ funnelName ++ ": " ++ stepName)⟩
    | some stepIndex =>
      let userKey := fingerprintLabel ++ "_" ++ funnelName
      let entry := (lookupA userFunnels userKey).getD ⟨now, []⟩
      let entry1 : UserFunnel := { entry with steps := entry.steps ++ [⟨stepName, now, props⟩] }
      let userFunnels1 := insertA userFunnels userKey entry1
      let completedSteps := entry1.steps.map StepRecord.step
      let isComplete := funnel.steps.all (completedSteps.contains ·)
      ⟨userFunnels1,
       some ⟨if isComplete then "funnel_completed" else "funnel_step",
             funnelName, stepName, stepIndex, funnel.steps.length, isComplete⟩,
       none⟩

/-! ### Fingerprint labels (`getFingerprintLabel`, src/analytik.js
lines 379-398) -/

/-- Word list, src/analytik.js lines 103-106. -/
def ADJECTIVES : List String :=
  ["Super", "Quick", "Silent", "Wild", "Dark", "Bright", "Strong", "Fast", "Cool", "Smart",
   "Bold", "Swift", "Stealth", "Mystic", "Noble", "Fierce", "Wise", "Sharp", "Brave", "Calm"]

/-- Word list, src/analytik.js lines 108-111. -/
def ANIMALS : List String :=
  ["Lion", "Eagle", "Wolf", "Tiger", "Bear", "Fox", "Hawk", "Shark", "Dragon", "Panther",
   "Falcon", "Lynx", "Raven", "Cobra", "Viper", "Jaguar", "Puma", "Cheetah", "Leopard", "Rhino"]

/-- One candidate label from one random draw: an adjective index, an
animal index (each `Math.floor(Math.random() * list.length)`, modelled
as an arbitrary natural reduced modulo the list length) and the draw
for `Math.floor(Math.random() * 9000) + 1000`. -/
def labelCandidate (pick : Nat × Nat × Nat) : String :=
  ADJECTIVES.getD (pick.1 % ADJECTIVES.length) "" ++
  ANIMALS.getD (pick.2.1 % ANIMALS.length) "" ++
  toString (pick.2.2 % 9000 + 1000)

/-- The do-while of `getFingerprintLabel`: accept the first candidate
not in use; the last candidate of the list is accepted even when it
collides (`attempts < 10` has failed). -/
def pickFrom (used : List String) : List String → String
  | [] => ""
  | [c] => c
  | c :: rest => cond (used.contains c) (pickFrom used rest) c

/-- `getFingerprintLabel(fingerprint)` (src/analytik.js lines
379-398): return the stored label if one exists, otherwise run the
bounded generate-and-check loop.  `stored` is the
`getStoredFingerprintLabel` result, `used` the values of the local
`da_labels` registry (`isLabelInUse`), and `picks` the stream of
random draws, of which the loop consumes at most 10. -/
def getFingerprintLabel (stored : Option String) (used : List String)
    (picks : List (Nat × Nat × Nat)) : String :=
  match stored with
  | some l => l
  | none => pickFrom used (picks.map labelCandidate)

/-! ### Persistent fingerprint storage (`storeFingerprintPersistently`
lines 400-420, `getStoredFingerprintLabel` lines 444-459) -/

/-- The record persisted as `da_fp`. -/
structure StoredRecord where
  fingerprint : String
  label : String
  timestamp : Nat
deriving DecidableEq, Repr

/-- `storeFingerprintPersistently()` (src/analytik.js lines 400-420):
one `try` block writes `localStorage`, `sessionStorage`, IndexedDB
(its own inner `try`, omitted here) and the cookie in that order; a
backend that is unavailable throws and aborts the writes after it.
Returns the resulting (localStorage, sessionStorage, cookie) contents
for the `da_fp` key, starting from empty backends. -/
def storeFingerprintPersistently (localOk sessionOk cookieOk : Bool) (r : StoredRecord) :
    Option StoredRecord × Option StoredRecord × Option StoredRecord :=
  if localOk then
    if sessionOk then
      if cookieOk then (some r, some r, some r)
      else (some r, some r, none)
    else (some r, none, none)
  else (none, none, none)

/-- `getStoredFingerprintLabel(fingerprint)` (src/analytik.js lines
444-459): only `localStorage` is consulted; when it throws
(`localOk = false`) or misses, the function returns `null` without
reading any other backend (the `sessionStore` and `cookieStore`
parameters are ignored, mirroring the source). -/
def getStoredFingerprintLabel (localOk : Bool)
    (localStore sessionStore cookieStore : Option StoredRecord)
    (fingerprint : String) : Option String :=
  if localOk then
    match localStore with
    | some data => if data.fingerprint = fingerprint then some data.label else none
    | none => none
  else none

/-! ### Delivery pipeline (`sendEvent` lines 799-809, `sendToDiscord`
lines 952-994, `queueEvent` lines 996-1002, `flushEventQueue` lines
1004-1013, `flushOfflineEvents` lines 1015-1020, `online` listener
lines 522-525)

Embeds (wire payloads) are opaque and modelled as naturals.  The
network is an oracle `net : Nat → Bool` giving the outcome of the
n-th transmission attempt (`true` = HTTP 2xx).  `sendToDiscord`,
`queueEvent` and `flushEventQueue` are mutually recursive in the
source (a failed send while online re-enqueues, which can re-trigger a
flush); the mutual knot is tied through one fuel-indexed interpreter
so that the definitions stay kernel-computable.  Fuel is only a
termination device: every concrete run below uses ample fuel. -/

structure DeliveryState where
  eventQueue : List Nat
  isOnline : Bool
  batchSize : Nat
  sent : List Nat
  attempts : Nat
deriving DecidableEq, Repr

inductive DeliveryAct where
  | send (embed : Nat)
  | queue (embed : Nat)
  | flush

/-- The bodies of `sendToDiscord` (`.send`), `queueEvent` (`.queue`)
and `flushEventQueue` (`.flush`), each a direct transcription of its
source function. -/
def deliverExec (net : Nat → Bool) : Nat → DeliveryAct → DeliveryState → DeliveryState
  | 0, _, st => st
  | fuel + 1, act, st =>
    match act with
    | .send e =>
      let ok := net st.attempts
      let st1 := { st with attempts := st.attempts + 1 }
      if ok then { st1 with sent := st1.sent ++ [e] }
      else if st1.isOnline then deliverExec net fuel (.queue e) st1
      else st1
    | .queue e =>
      let st1 := { st with eventQueue := st.eventQueue ++ [e] }
      if st1.batchSize ≤ st1.eventQueue.length then deliverExec net fuel .flush st1 else st1
    | .flush =>
      if st.eventQueue.isEmpty then st
      else
        let events := st.eventQueue.take st.batchSize
        let st1 := { st with eventQueue := st.eventQueue.drop st.batchSize }
        events.foldl (fun s e => deliverExec net fuel (.send e) s) st1

/-- `sendToDiscord(embed)` (src/analytik.js lines 952-994): attempt
transmission; a non-2xx response throws; the catch re-enqueues only
`if (this.isOnline)`. -/
def sendToDiscord (net : Nat → Bool) (fuel : Nat) (embed : Nat) (st : DeliveryState) : DeliveryState :=
  deliverExec net fuel (.send embed) st

/-- `queueEvent(embed)` (src/analytik.js lines 996-1002). -/
def queueEvent (net : Nat → Bool) (fuel : Nat) (embed : Nat) (st : DeliveryState) : DeliveryState :=
  deliverExec net fuel (.queue embed) st

/-- `flushEventQueue()` (src/analytik.js lines 1004-1013). -/
def flushEventQueue (net : Nat → Bool) (fuel : Nat) (st : DeliveryState) : DeliveryState :=
  deliverExec net fuel .flush st

/-- `flushOfflineEvents()` (src/analytik.js lines 1015-1020). -/
def flushOfflineEvents (net : Nat → Bool) (fuel : Nat) (st : DeliveryState) : DeliveryState :=
  if 0 < st.eventQueue.length then flushEventQueue net fuel st else st

/-- `sendEvent(eventData, priority)` (src/analytik.js lines 799-809);
`shouldSend` is the outcome of the `shouldSendEvent` sampling and
exclusion check. -/
def sendEvent (net : Nat → Bool) (fuel : Nat) (shouldSend priority : Bool) (embed : Nat)
    (st : DeliveryState) : DeliveryState :=
  if !shouldSend then st
  else if priority || st.isOnline then sendToDiscord net fuel embed st
  else queueEvent net fuel embed st

/-- The `online` listener (src/analytik.js lines 522-525): set
`isOnline` and flush. -/
def handleOnline (net : Nat → Bool) (fuel : Nat) (st : DeliveryState) : DeliveryState :=
  flushOfflineEvents net fuel { st with isOnline := true }

/-! ### Helper lemmas -/

/-- `Math.abs(h) / 2147483647` is never negative. -/
theorem hashCode_nonneg (s : String) : 0 ≤ hashCode s := by
  unfold hashCode
  split
  · exact le_refl 0
  · positivity

theorem lookupA_insertA {α : Type} (l : List (String × α)) (k k' : String) (v : α) :
    lookupA (insertA l k v) k' = if k = k' then some v else lookupA l k' := by
  induction l with
  | nil => simp [insertA, lookupA]
  | cons p rest ih =>
    by_cases h : p.1 = k
    · simp only [insertA, if_pos h, lookupA]
      by_cases h2 : k = k' <;> simp [h, h2]
    · simp only [insertA, if_neg h, lookupA, ih]
      by_cases h2 : p.1 = k'
      · have hk : ¬ k = k' := fun he => h (he ▸ h2)
        simp [h2, hk]
      · simp [h2]

theorem truthyLookup_insertA (l : List (String × String)) (k k' v : String) :
    truthyLookup (insertA l k v) k' =
      if k = k' then (if v = "" then none else some v) else truthyLookup l k' := by
  unfold truthyLookup
  rw [lookupA_insertA]
  by_cases h : k = k' <;> simp [h]

theorem string_append_cancel {a b c : String} (h : a ++ b = a ++ c) : b = c := by
  have hd := congrArg String.data h
  simp only [String.data_append] at hd
  exact String.ext (List.append_cancel_left hd)

/-- The `userKey` scheme `label_test` is injective in the test name
for a fixed label. -/
theorem userKey_inj {L T₁ T₂ : String} (h : L ++ "_" ++ T₁ = L ++ "_" ++ T₂) : T₁ = T₂ :=
  string_append_cancel h

/-- How `getABTestVariant` changes the stored state: the tests are
untouched and the assignments either stay or gain the key of a test
that exists. -/
theorem getABTestVariant_state (st : ABState) (L T : String) :
    (getABTestVariant st L T).2.tests = st.tests ∧
    ((getABTestVariant st L T).2.assignments = st.assignments ∨
      ∃ t v, lookupA st.tests T = some t ∧
        (getABTestVariant st L T).2.assignments = insertA st.assignments (L ++ "_" ++ T) v) := by
  unfold getABTestVariant
  cases h1 : truthyLookup st.assignments (L ++ "_" ++ T) with
  | some v => simp [h1]
  | none =>
    simp only [h1]
    cases h2 : lookupA st.tests T with
    | none => simp [h2]
    | some t =>
      simp only [h2]
      cases h3 : (if hashCode (L ++ T) < t.trafficSplit then t.variants.get? 0 else t.variants.get? 1) with
      | none => simp [h3]
      | some v =>
        simp only [h3]
        exact ⟨trivial, Or.inr ⟨t, v, rfl, rfl⟩⟩

/-- Invariant of reachable A/B-testing states: a (truthy) stored
assignment key only ever points at a test that exists, because
`createABTest` never removes tests and `getABTestVariant` only stores
an assignment after finding the test. -/
theorem ab_assignment_implies_test (L : String) (st : ABState) (h : ABReachable L st) :
    ∀ T v, truthyLookup st.assignments (L ++ "_" ++ T) = some v →
      ∃ t, lookupA st.tests T = some t := by
  induction h with
  | init => intro T v hv; simp [truthyLookup, lookupA] at hv
  | step st' op hr ih =>
    intro T v hv
    cases op with
    | create n vs s tm =>
      have hv' : truthyLookup st'.assignments (L ++ "_" ++ T) = some v := hv
      obtain ⟨t, ht⟩ := ih T v hv'
      simp only [applyABOp, createABTest, lookupA_insertA]
      by_cases hTn : n = T
      · exact ⟨⟨vs, s, tm⟩, by rw [if_pos hTn]⟩
      · refine ⟨t, ?_⟩
        rw [if_neg hTn]
        exact ht
    | lookupVariant n =>
      obtain ⟨htests, hasg⟩ := getABTestVariant_state st' L n
      simp only [applyABOp] at hv ⊢
      rw [htests]
      cases hasg with
      | inl he => exact ih T v (he ▸ hv)
      | inr hex =>
        obtain ⟨t, v', hlk, he⟩ := hex
        rw [he, truthyLookup_insertA] at hv
        by_cases hk : L ++ "_" ++ n = L ++ "_" ++ T
        · exact ⟨t, userKey_inj hk ▸ hlk⟩
        · rw [if_neg hk] at hv
          exact ih T v hv

theorem indexOfFrom_eq_none (x : String) :
    ∀ (l : List String) (i : Nat), x ∉ l → indexOfFrom x l i = none := by
  intro l
  induction l with
  | nil => intro i _; rfl
  | cons y rest ih =>
    intro i hx
    simp only [List.mem_cons, not_or] at hx
    have hne : ¬ y = x := fun he => hx.1 he.symm
    simp only [indexOfFrom, if_neg hne]
    exact ih (i + 1) hx.2

theorem indexOfFrom_isSome (x : String) :
    ∀ (l : List String) (i : Nat), x ∈ l → (indexOfFrom x l i).isSome := by
  intro l
  induction l with
  | nil => intro i hx; cases hx
  | cons y rest ih =>
    intro i hx
    by_cases h : y = x
    · simp [indexOfFrom, h]
    · have : x ∈ rest := by
        cases hx with
        | head => exact absurd rfl h
        | tail _ hm => exact hm
      simp [indexOfFrom, h, ih (i + 1) this]

theorem pickFrom_mem (used : List String) :
    ∀ cands : List String, cands ≠ [] → pickFrom used cands ∈ cands := by
  intro cands
  induction cands with
  | nil => intro h; exact absurd rfl h
  | cons c rest ih =>
    intro _
    cases rest with
    | nil => simp [pickFrom]
    | cons d rest2 =>
      cases hc : used.contains c with
      | true =>
        simp only [pickFrom, hc, cond_true]
        exact List.mem_cons_of_mem _ (ih (by simp))
      | false =>
        simp only [pickFrom, hc, cond_false]
        exact List.mem_cons_self _ _

theorem pickFrom_not_used (used : List String) :
    ∀ cands : List String, (∃ c ∈ cands, c ∉ used) → pickFrom used cands ∉ used := by
  intro cands
  induction cands with
  | nil => rintro ⟨c, hc, _⟩; cases hc
  | cons c rest ih =>
    rintro ⟨c', hc', hfree⟩
    cases rest with
    | nil =>
      have hcc : c' = c := by cases hc' with | head => rfl | tail _ hm => cases hm
      rw [hcc] at hfree
      simpa [pickFrom] using hfree
    | cons d rest2 =>
      by_cases h : c ∈ used
      · have hc : used.contains c = true := by simpa using h
        simp only [pickFrom, hc, cond_true]
        apply ih
        cases hc' with
        | head => exact absurd h hfree
        | tail _ hm => exact ⟨c', hm, hfree⟩
      · have hc : used.contains c = false := by simpa using h
        simp only [pickFrom, hc, cond_false]
        exact h

theorem pickFrom_all_used (used : List String) :
    ∀ cands : List String, cands ≠ [] → (∀ c ∈ cands, c ∈ used) →
      some (pickFrom used cands) = cands.getLast? := by
  intro cands
  induction cands with
  | nil => intro h; exact absurd rfl h
  | cons c rest ih =>
    intro _ hall
    cases rest with
    | nil => rfl
    | cons d rest2 =>
      have hc : used.contains c = true := by simpa using hall c (List.mem_cons_self _ _)
      rw [List.getLast?_cons_cons]
      simp only [pickFrom, hc, cond_true]
      exact ih (by simp) (fun x hx => hall x (List.mem_cons_of_mem _ hx))

theorem labelCandidate_form (pick : Nat × Nat × Nat) :
    ∃ a ∈ ADJECTIVES, ∃ b ∈ ANIMALS, ∃ n : Nat, 1000 ≤ n ∧ n ≤ 9999 ∧
      labelCandidate pick = a ++ b ++ toString n := by
  have ha : pick.1 % ADJECTIVES.length < ADJECTIVES.length :=
    Nat.mod_lt _ (by simp [ADJECTIVES])
  have hb : pick.2.1 % ANIMALS.length < ANIMALS.length :=
    Nat.mod_lt _ (by simp [ANIMALS])
  refine ⟨_, ?_, _, ?_, pick.2.2 % 9000 + 1000, ?_, ?_, rfl⟩
  · rw [List.getD_eq_get _ _ ha]; exact List.get_mem _ _ _
  · rw [List.getD_eq_get _ _ hb]; exact List.get_mem _ _ _
  · omega
  · have := Nat.mod_lt pick.2.2 (show 0 < 9000 by norm_num)
    omega

/-- The components list of `generateFingerprint` is strictly sorted by
the fixed key order, whatever the configuration. -/
theorem componentsOf_sorted (cfg : FPConfig) (sig : FPSignals) :
    (componentsOf cfg sig).Sorted componentLt := by
  obtain ⟨h, b, c, w, a, f⟩ := cfg
  cases h <;> cases b <;> cases c <;> cases w <;> cases a <;> cases f <;>
    simp [componentsOf, optComp, List.sorted_cons, componentLt, componentRank]

/-! ### Claim theorems -/

/-- C1: for every pair of signal bundles with the same
category-to-value content (regardless of key order),
`generateFingerprint` produces the identical fingerprint digest.  The
bundle built by `generateFingerprint` lists its keys in one fixed
canonical order, so equal content forces equal serialization and hence
an equal `hashString` digest. -/
theorem fingerprint_content_determines_digest (cfg₁ cfg₂ : FPConfig) (sig₁ sig₂ : FPSignals)
    (hperm : (componentsOf cfg₁ sig₁).Perm (componentsOf cfg₂ sig₂)) :
    generateFingerprint cfg₁ sig₁ = generateFingerprint cfg₂ sig₂ := by
  haveI : IsAntisymm (String × String) componentLt :=
    ⟨fun p q h₁ h₂ => absurd h₂ (Nat.lt_asymm h₁)⟩
  have heq : componentsOf cfg₁ sig₁ = componentsOf cfg₂ sig₂ :=
    List.eq_of_perm_of_sorted hperm (componentsOf_sorted cfg₁ sig₁) (componentsOf_sorted cfg₂ sig₂)
  unfold generateFingerprint
  rw [heq]

/-- Witness for C1: two bundles that agree on the enabled components
(hardware and fonts) but differ on disabled providers hash
identically. -/
theorem fingerprint_content_determines_digest_witness :
    generateFingerprint ⟨true, false, false, false, false, true⟩ ⟨"h1", "b", "c", "w", "a", "f1"⟩ =
      generateFingerprint ⟨true, false, false, false, false, true⟩ ⟨"h1", "bX", "cX", "wX", "aX", "f1"⟩ :=
  fingerprint_content_determines_digest _ _ _ _ (List.Perm.refl _)

/-- C2 (amended): once a truthy (non-empty) variant assignment is
stored for `(experiment, fingerprint label)`, `getABTestVariant`
returns it unchanged and leaves the stored state untouched. -/
theorem variant_assignment_sticky_when_truthy (st : ABState) (L T v : String)
    (h : truthyLookup st.assignments (L ++ "_" ++ T) = some v) :
    (getABTestVariant st L T).1 = JSValue.str v ∧ (getABTestVariant st L T).2 = st := by
  unfold getABTestVariant
  simp [h]

/-- Witness for C2 (amended). -/
theorem variant_assignment_sticky_when_truthy_witness :
    (getABTestVariant ⟨[], [("L_t", "A")]⟩ "L" "t").1 = JSValue.str "A" ∧
      (getABTestVariant ⟨[], [("L_t", "A")]⟩ "L" "t").2 = ⟨[], [("L_t", "A")]⟩ :=
  variant_assignment_sticky_when_truthy ⟨[], [("L_t", "A")]⟩ "L" "t" "A" rfl

/-- Counterexample to C2 as stated: an assignment whose stored variant
is the empty string exists for the pair, yet `getABTestVariant`
ignores it (the check `if (assignments[userKey])` is a truthiness
test), recomputes, returns `"B"` and overwrites the stored
assignment — the client is reassigned. -/
theorem variant_assignment_empty_string_reassigned :
    lookupA [("L_t", "")] ("L" ++ "_" ++ "t") = some "" ∧
    (getABTestVariant ⟨[("t", ⟨["A", "B"], 0, 0⟩)], [("L_t", "")]⟩ "L" "t").1 = JSValue.str "B" ∧
    (getABTestVariant ⟨[("t", ⟨["A", "B"], 0, 0⟩)], [("L_t", "")]⟩ "L" "t").2.assignments =
      [("L_t", "B")] := by
  have hnn : ¬ hashCode "Lt" < 0 := not_lt.mpr (hashCode_nonneg _)
  refine ⟨rfl, ?_, ?_⟩ <;>
  · unfold getABTestVariant
    simp [truthyLookup, lookupA, insertA, hnn]

/-- C3 (amended): when no truthy assignment exists and the test is
found, the variant is selected by hashing `fingerprintLabel + testName`
with the 32-bit string hash `hashCode` (normalized as
`|h| / 2147483647`), not with the SHA-256 digest of §4.1, and by a
two-way threshold against `trafficSplit`: `variants[0]` below the
threshold, `variants[1]` otherwise (JS `undefined` if that index does
not exist).  There is no weight-map walk and no first-variant
fallback. -/
theorem variant_selection_uses_hashCode_threshold (st : ABState) (L T : String) (t : ABTest)
    (hA : truthyLookup st.assignments (L ++ "_" ++ T) = none)
    (hT : lookupA st.tests T = some t) :
    (getABTestVariant st L T).1 =
      (match (if hashCode (L ++ T) < t.trafficSplit then t.variants.get? 0 else t.variants.get? 1) with
       | some v => JSValue.str v
       | none => JSValue.undef) := by
  unfold getABTestVariant
  simp only [hA, hT]
  cases h3 : (if hashCode (L ++ T) < t.trafficSplit then t.variants.get? 0 else t.variants.get? 1) with
  | none => simp [h3]
  | some v => simp [h3]

/-- Witness for C3 (amended). -/
theorem variant_selection_uses_hashCode_threshold_witness :
    (getABTestVariant ⟨[("t", ⟨["A", "B"], 0, 0⟩)], []⟩ "L" "t").1 =
      (match (if hashCode ("L" ++ "t") < (⟨["A", "B"], 0, 0⟩ : ABTest).trafficSplit then
                (⟨["A", "B"], 0, 0⟩ : ABTest).variants.get? 0
              else (⟨["A", "B"], 0, 0⟩ : ABTest).variants.get? 1) with
       | some v => JSValue.str v
       | none => JSValue.undef) :=
  variant_selection_uses_hashCode_threshold ⟨[("t", ⟨["A", "B"], 0, 0⟩)], []⟩ "L" "t" _ rfl rfl

set_option maxRecDepth 400000 in
/-- Counterexample to C3 as stated: at the concrete input
`fingerprintLabel = "SwiftFox1234"`, `testName = "t"` with variants
`["A", "B"]` and the default 50/50 split, the spec's algorithm
(SHA-256 of the concatenation, normalized to `[0,1)`, uniform weight
walk) selects `"A"`, while `getABTestVariant` selects `"B"`: the code
does not use the §4.1 digest function. -/
theorem variant_selection_differs_from_spec_walk :
    specSelectVariant "SwiftFox1234" "t" ["A", "B"] = some "A" ∧
    (getABTestVariant ⟨[("t", ⟨["A", "B"], 1 / 2, 0⟩)], []⟩ "SwiftFox1234" "t").1 =
      JSValue.str "B" := by
  constructor
  · have hN : sha256Nat "SwiftFox1234t" < 2 ^ 255 := by decide
    have hu : (sha256Nat "SwiftFox1234t" : ℚ) / 2 ^ 256 < 2⁻¹ := by
      rw [div_lt_iff (by positivity : (0 : ℚ) < 2 ^ 256)]
      calc (sha256Nat "SwiftFox1234t" : ℚ) < 2 ^ 255 := by exact_mod_cast hN
        _ = 2⁻¹ * 2 ^ 256 := by norm_num
    simp [specSelectVariant, specWalkGo, hu]
  · have hraw : hashCodeRaw [83, 119, 105, 102, 116, 70, 111, 120, 49, 50, 51, 52, 116] =
        -1525208042 := by decide
    have hge : ¬ hashCode "SwiftFox1234t" < 2⁻¹ := by
      simp [hashCode, hraw]
      norm_num
    unfold getABTestVariant
    simp [truthyLookup, lookupA, hge]

/-- C4: when no stored label exists, label generation produces
`Adjective ++ Animal ++ four-digit number` from the two fixed word
lists; the first of the up-to-10 generated candidates that is not in
the local registry is returned; if all 10 candidates collide, the last
one is accepted anyway (the operation always yields a label). -/
theorem label_generation_bounded_retry (used : List String) (picks : List (Nat × Nat × Nat))
    (hlen : picks.length = 10) :
    (∃ a ∈ ADJECTIVES, ∃ b ∈ ANIMALS, ∃ n : Nat, 1000 ≤ n ∧ n ≤ 9999 ∧
        getFingerprintLabel none used picks = a ++ b ++ toString n) ∧
    ((∃ c ∈ picks.map labelCandidate, c ∉ used) → getFingerprintLabel none used picks ∉ used) ∧
    ((∀ c ∈ picks.map labelCandidate, c ∈ used) →
        some (getFingerprintLabel none used picks) = (picks.map labelCandidate).getLast?) := by
  have hne : picks.map labelCandidate ≠ [] := by
    intro h
    have := congrArg List.length h
    simp [hlen] at this
  refine ⟨?_, ?_, ?_⟩
  · have hmem := pickFrom_mem used (picks.map labelCandidate) hne
    rw [List.mem_map] at hmem
    obtain ⟨pick, _, hpick⟩ := hmem
    obtain ⟨a, ha, b, hb, n, h1, h2, hform⟩ := labelCandidate_form pick
    exact ⟨a, ha, b, hb, n, h1, h2, by rw [getFingerprintLabel, ← hpick, hform]⟩
  · exact fun hex => pickFrom_not_used used _ hex
  · exact fun hall => pickFrom_all_used used _ hne hall

/-- Witness for C4: with an empty registry and ten fixed draws the
returned label is the first candidate `SuperLion1000`, which is of the
required form and unused. -/
theorem label_generation_bounded_retry_witness :
    (∃ a ∈ ADJECTIVES, ∃ b ∈ ANIMALS, ∃ n : Nat, 1000 ≤ n ∧ n ≤ 9999 ∧
        getFingerprintLabel none [] (List.replicate 10 (0, 0, 0)) = a ++ b ++ toString n) ∧
    ((∃ c ∈ (List.replicate 10 (0, 0, 0)).map labelCandidate, c ∉ ([] : List String)) →
        getFingerprintLabel none [] (List.replicate 10 (0, 0, 0)) ∉ ([] : List String)) ∧
    ((∀ c ∈ (List.replicate 10 (0, 0, 0)).map labelCandidate, c ∈ ([] : List String)) →
        some (getFingerprintLabel none [] (List.replicate 10 (0, 0, 0))) =
          ((List.replicate 10 (0, 0, 0)).map labelCandidate).getLast?) :=
  label_generation_bounded_retry [] (List.replicate 10 (0, 0, 0)) (by decide)

/-- C5 (amended): a failed transmission re-enqueues the wire payload
at the tail of the queue only when the client still believes it is
online; the `sent` log is unchanged.  (The hypothesis keeps the queue
below the batch size so that the re-enqueue does not immediately
re-trigger a flush.) -/
theorem failed_send_requeues_when_online (net : Nat → Bool) (fuel : Nat) (e : Nat)
    (st : DeliveryState) (hOnline : st.isOnline = true) (hFail : net st.attempts = false)
    (hRoom : st.eventQueue.length + 1 < st.batchSize) :
    (sendToDiscord net (fuel + 2) e st).eventQueue = st.eventQueue ++ [e] ∧
    (sendToDiscord net (fuel + 2) e st).sent = st.sent := by
  unfold sendToDiscord
  simp only [deliverExec, hFail, hOnline, Bool.false_eq_true, if_false, if_true]
  rw [if_neg (show ¬ st.batchSize ≤ (st.eventQueue ++ [e]).length by
    simp only [List.length_append, List.length_cons, List.length_nil]
    omega)]
  exact ⟨rfl, rfl⟩

/-- Witness for C5 (amended). -/
theorem failed_send_requeues_when_online_witness :
    (sendToDiscord (fun _ => false) 7 3 ⟨[9], true, 10, [], 0⟩).eventQueue = [9] ++ [3] ∧
    (sendToDiscord (fun _ => false) 7 3 ⟨[9], true, 10, [], 0⟩).sent = [] :=
  failed_send_requeues_when_online (fun _ => false) 5 3 ⟨[9], true, 10, [], 0⟩ rfl rfl (by decide)

/-- Counterexample to C5 as stated: while offline (`isOnline = false`)
a failed transmission does not re-enqueue the payload — the catch
block guards the re-queue with `if (this.isOnline)` — so the
observation is silently lost (neither queued nor sent). -/
theorem failed_send_dropped_when_offline :
    (sendToDiscord (fun _ => false) 5 7 ⟨[], false, 10, [], 0⟩).eventQueue = [] ∧
    (sendToDiscord (fun _ => false) 5 7 ⟨[], false, 10, [], 0⟩).sent = [] ∧
    (sendToDiscord (fun _ => false) 5 7 ⟨[], false, 10, [], 0⟩).eventQueue ≠ [] ++ [7] := by
  refine ⟨rfl, rfl, by decide⟩

/-- C6 (amended): recording a funnel step again is not a no-op:
`trackFunnelStep` appends a fresh step record (with the current
timestamp) on every call — earlier records are retained as a prefix —
and emits an observation on every call, marked completed whenever all
steps are present. -/
theorem funnel_step_appends_every_call (funnels : List (String × FunnelDef))
    (uf : List (String × UserFunnel)) (L F S : String) (props : List (String × String))
    (now : Nat) (fd : FunnelDef) (hF : lookupA funnels F = some fd) (hS : S ∈ fd.steps) :
    lookupA (trackFunnelStep funnels uf L F S props now).state (L ++ "_" ++ F) =
      some ⟨((lookupA uf (L ++ "_" ++ F)).getD ⟨now, []⟩).startedAt,
            ((lookupA uf (L ++ "_" ++ F)).getD ⟨now, []⟩).steps ++ [⟨S, now, props⟩]⟩ ∧
    ((trackFunnelStep funnels uf L F S props now).event).isSome := by
  have hidx : (indexOfFrom S fd.steps 0).isSome := indexOfFrom_isSome S fd.steps 0 hS
  obtain ⟨i, hi⟩ := Option.isSome_iff_exists.mp hidx
  unfold trackFunnelStep
  simp only [hF, hi, lookupA_insertA]
  simp

/-- Witness for C6 (amended). -/
theorem funnel_step_appends_every_call_witness :
    lookupA (trackFunnelStep [("f", ⟨["s1", "s2"], 0⟩)] [] "L" "f" "s1" [] 5).state
        ("L" ++ "_" ++ "f") =
      some ⟨((lookupA ([] : List (String × UserFunnel)) ("L" ++ "_" ++ "f")).getD ⟨5, []⟩).startedAt,
            ((lookupA ([] : List (String × UserFunnel)) ("L" ++ "_" ++ "f")).getD ⟨5, []⟩).steps ++
              [⟨"s1", 5, []⟩]⟩ ∧
    ((trackFunnelStep [("f", ⟨["s1", "s2"], 0⟩)] [] "L" "f" "s1" [] 5).event).isSome :=
  funnel_step_appends_every_call [("f", ⟨["s1", "s2"], 0⟩)] [] "L" "f" "s1" [] 5
    ⟨["s1", "s2"], 0⟩ rfl (by decide)

/-- Counterexample to C6 as stated: with funnel `f = ["s1"]`, the
first call completes the funnel and emits `funnel_completed`; a second
call with the same step is not a no-op (the stored step array grows
and carries the new timestamp) and emits `funnel_completed` again, so
the completion observation does not fire at most once. -/
theorem funnel_step_not_idempotent :
    (trackFunnelStep [("f", ⟨["s1"], 0⟩)] [] "L" "f" "s1" [] 1).event =
      some ⟨"funnel_completed", "f", "s1", 0, 1, true⟩ ∧
    (trackFunnelStep [("f", ⟨["s1"], 0⟩)]
        (trackFunnelStep [("f", ⟨["s1"], 0⟩)] [] "L" "f" "s1" [] 1).state "L" "f" "s1" [] 2).state ≠
      (trackFunnelStep [("f", ⟨["s1"], 0⟩)] [] "L" "f" "s1" [] 1).state ∧
    (trackFunnelStep [("f", ⟨["s1"], 0⟩)]
        (trackFunnelStep [("f", ⟨["s1"], 0⟩)] [] "L" "f" "s1" [] 1).state "L" "f" "s1" [] 2).event =
      some ⟨"funnel_completed", "f", "s1", 0, 1, true⟩ := by
  decide

/-- C7 / code bug: after `storeFingerprintPersistently` replicated the
`(fingerprint, label)` record to localStorage, sessionStorage and the
cookie, a read with localStorage unavailable returns `null` even
though the other backends still hold the record —
`getStoredFingerprintLabel` never consults them (its catch block says
"Continue to other storage methods" but none follow). -/
theorem stored_label_unreadable_without_localStorage :
    (storeFingerprintPersistently true true true ⟨"fp", "SwiftFox1234", 0⟩).2.1 =
      some ⟨"fp", "SwiftFox1234", 0⟩ ∧
    (storeFingerprintPersistently true true true ⟨"fp", "SwiftFox1234", 0⟩).2.2 =
      some ⟨"fp", "SwiftFox1234", 0⟩ ∧
    getStoredFingerprintLabel false
      (storeFingerprintPersistently true true true ⟨"fp", "SwiftFox1234", 0⟩).1
      (storeFingerprintPersistently true true true ⟨"fp", "SwiftFox1234", 0⟩).2.1
      (storeFingerprintPersistently true true true ⟨"fp", "SwiftFox1234", 0⟩).2.2
      "fp" = none := by
  decide

/-- C8: a `trackFunnelStep` call with an unknown funnel name, or with
a step name not in the funnel's step list, logs a warning, leaves the
stored funnel progress unchanged and emits nothing; and in any
reachable A/B-testing state, `getABTestVariant` with an unknown test
name returns `null` and leaves the state unchanged.  (The embedding is
by total functions: no branch of either operation throws.) -/
theorem unknown_reference_is_noop (L : String) (st : ABState) (hr : ABReachable L st)
    (T : String) (hT : lookupA st.tests T = none)
    (funnels : List (String × FunnelDef)) (uf : List (String × UserFunnel))
    (F S : String) (props : List (String × String)) (now : Nat)
    (hF : lookupA funnels F = none ∨ ∃ fd, lookupA funnels F = some fd ∧ S ∉ fd.steps) :
    (getABTestVariant st L T).1 = JSValue.null ∧
    (getABTestVariant st L T).2 = st ∧
    (trackFunnelStep funnels uf L F S props now).state = uf ∧
    (trackFunnelStep funnels uf L F S props now).event = none ∧
    ((trackFunnelStep funnels uf L F S props now).warn).isSome := by
  have hA : truthyLookup st.assignments (L ++ "_" ++ T) = none := by
    cases hc : truthyLookup st.assignments (L ++ "_" ++ T) with
    | none => rfl
    | some v =>
      obtain ⟨t, ht⟩ := ab_assignment_implies_test L st hr T v hc
      rw [ht] at hT
      cases hT
  have hAB : (getABTestVariant st L T).1 = JSValue.null ∧ (getABTestVariant st L T).2 = st := by
    unfold getABTestVariant
    simp [hA, hT]
  have hFun : (trackFunnelStep funnels uf L F S props now).state = uf ∧
      (trackFunnelStep funnels uf L F S props now).event = none ∧
      ((trackFunnelStep funnels uf L F S props now).warn).isSome := by
    cases hF with
    | inl hnone => unfold trackFunnelStep; simp [hnone]
    | inr hex =>
      obtain ⟨fd, hfd, hS⟩ := hex
      have hidx : indexOfFrom S fd.steps 0 = none := indexOfFrom_eq_none S fd.steps 0 hS
      unfold trackFunnelStep
      simp [hfd, hidx]
  exact ⟨hAB.1, hAB.2, hFun.1, hFun.2.1, hFun.2.2⟩

/-- Witness for C8. -/
theorem unknown_reference_is_noop_witness :
    (getABTestVariant ⟨[], []⟩ "L" "t").1 = JSValue.null ∧
    (getABTestVariant ⟨[], []⟩ "L" "t").2 = (⟨[], []⟩ : ABState) ∧
    (trackFunnelStep [] [] "L" "f" "s" [] 0).state = [] ∧
    (trackFunnelStep [] [] "L" "f" "s" [] 0).event = none ∧
    ((trackFunnelStep [] [] "L" "f" "s" [] 0).warn).isSome :=
  unknown_reference_is_noop "L" ⟨[], []⟩ ABReachable.init "t" rfl [] [] "f" "s" [] 0 (Or.inl rfl)

/-- C9 (amended): submitting 12 observations while offline with
`batchSize = 10` triggers a flush at the 10th: its ten sends all fail
and, because `isOnline` is false, all ten payloads are dropped.  The
queue then holds only observations 11 and 12 (not all 12); once
connectivity is restored, the flush sends those two in FIFO order. -/
theorem offline_batch_flush_drops_then_sends_remainder :
    (((List.range 12).map (· + 1)).foldl
        (fun s e => sendEvent (fun _ => false) 100 true false e s)
        ⟨[], false, 10, [], 0⟩).eventQueue = [11, 12] ∧
    (((List.range 12).map (· + 1)).foldl
        (fun s e => sendEvent (fun _ => false) 100 true false e s)
        ⟨[], false, 10, [], 0⟩).sent = [] ∧
    (handleOnline (fun _ => true) 100
        (((List.range 12).map (· + 1)).foldl
          (fun s e => sendEvent (fun _ => false) 100 true false e s)
          ⟨[], false, 10, [], 0⟩)).sent = [11, 12] ∧
    (handleOnline (fun _ => true) 100
        (((List.range 12).map (· + 1)).foldl
          (fun s e => sendEvent (fun _ => false) 100 true false e s)
          ⟨[], false, 10, [], 0⟩)).eventQueue = [] := by
  refine ⟨rfl, rfl, rfl, rfl⟩

/-- Counterexample to C9 as stated: after the 12 offline submissions
the queue does not hold all 12 observations — it holds 2 (the first
10 were flushed, failed and dropped). -/
theorem offline_queue_does_not_hold_all_twelve :
    (((List.range 12).map (· + 1)).foldl
        (fun s e => sendEvent (fun _ => false) 100 true false e s)
        ⟨[], false, 10, [], 0⟩).eventQueue.length = 2 ∧
    (((List.range 12).map (· + 1)).foldl
        (fun s e => sendEvent (fun _ => false) 100 true false e s)
        ⟨[], false, 10, [], 0⟩).eventQueue.length ≠ 12 := by
  refine ⟨rfl, by decide⟩

/-- C10 (amended): on a fresh assignment (no truthy stored value) for
an existing test with at least two variants, `getABTestVariant`
returns a member of the declared variants list (in fact `variants[0]`
or `variants[1]`).  With a single-variant test the `variants[1]`
branch yields JS `undefined`, which is outside the list. -/
theorem fresh_variant_member_of_declared_list (st : ABState) (L T : String) (t : ABTest)
    (hA : truthyLookup st.assignments (L ++ "_" ++ T) = none)
    (hT : lookupA st.tests T = some t) (hlen : 2 ≤ t.variants.length) :
    ∃ v ∈ t.variants, (getABTestVariant st L T).1 = JSValue.str v := by
  unfold getABTestVariant
  simp only [hA, hT]
  by_cases hc : hashCode (L ++ T) < t.trafficSplit
  · have hlt : 0 < t.variants.length := by omega
    have h0 : t.variants[0]? = some t.variants[0] := List.getElem?_eq_getElem hlt
    exact ⟨t.variants[0], List.getElem_mem hlt, by simp [hc, h0]⟩
  · have hlt : 1 < t.variants.length := by omega
    have h1 : t.variants[1]? = some t.variants[1] := List.getElem?_eq_getElem hlt
    exact ⟨t.variants[1], List.getElem_mem hlt, by simp [hc, h1]⟩

/-- Witness for C10 (amended). -/
theorem fresh_variant_member_of_declared_list_witness :
    ∃ v ∈ (["A", "B"] : List String),
      (getABTestVariant ⟨[("t", ⟨["A", "B"], 0, 0⟩)], []⟩ "L" "t").1 = JSValue.str v :=
  fresh_variant_member_of_declared_list ⟨[("t", ⟨["A", "B"], 0, 0⟩)], []⟩ "L" "t"
    ⟨["A", "B"], 0, 0⟩ rfl rfl (by decide)

/-- Counterexample to C10 as stated: a test created with the single
variant `["only"]` and `trafficSplit = 0` returns JS `undefined` from
`getABTestVariant` (the `variants[1]` access is out of bounds), which
is not a member of the declared variants list. -/
theorem single_variant_test_returns_undefined :
    (getABTestVariant ⟨[("t", ⟨["only"], 0, 0⟩)], []⟩ "L" "t").1 = JSValue.undef ∧
    ∀ v ∈ (["only"] : List String),
      (getABTestVariant ⟨[("t", ⟨["only"], 0, 0⟩)], []⟩ "L" "t").1 ≠ JSValue.str v := by
  have h : (getABTestVariant ⟨[("t", ⟨["only"], 0, 0⟩)], []⟩ "L" "t").1 = JSValue.undef := by
    have hnn : ¬ hashCode "Lt" < 0 := not_lt.mpr (hashCode_nonneg _)
    unfold getABTestVariant
    simp [truthyLookup, lookupA, hnn]
  exact ⟨h, fun v _ => by rw [h]; exact fun hc => JSValue.noConfusion hc⟩

end Analytik
